import Mathlib

set_option maxHeartbeats 1000000
set_option maxRecDepth 100000

namespace EW

/-- A texture handle: either the texture of the pre-chain fbo (self.fbo.texture,
the buffer holding the widget child content) or the color-buffer texture of the
EffectFbo whose identity is the given number. -/
inductive Tex where
| preChain : Tex
| stage : Nat → Tex
deriving DecidableEq

/-- Fragment shader source that a freshly created kivy Fbo carries before
set_fs is ever called (the framework default, opaque for our purposes). -/
def default_fs : String := "kivy default fragment shader"

/-- Transcription of shader_header (effectwidget.py lines 60-71). -/
def shader_header : String :=
  "\n#ifdef GL_ES\nprecision highp float;\n#endif\n\n/* Outputs from the vertex shader */\nvarying vec4 frag_color;\nvarying vec2 tex_coord0;\n\n/* uniform texture samplers */\nuniform sampler2D texture0;\n"

/-- Transcription of shader_uniforms (lines 73-76). -/
def shader_uniforms : String :=
  "\nuniform vec2 resolution;\nuniform float time;\n"

/-- Transcription of shader_footer_effect (lines 84-91). -/
def shader_footer_effect : String :=
  "\nvoid main (void)\x7b\n    vec4 normal_color = frag_color * texture2D(texture0, tex_coord0);\n    vec4 effect_color = effect(normal_color, texture0, tex_coord0,\n                               gl_FragCoord.xy);\n    gl_FragColor = effect_color;\n\x7d\n"

/-- Transcription of effect_trivial (lines 93-98), the default glsl of
EffectBase. -/
def effect_trivial : String :=
  "\nvec4 effect(vec4 color, sampler2D texture, vec2 tex_coords, vec2 coords)\n\x7b\n    return color;\n\x7d\n"

/-- Full fragment shader source assembled by EffectBase.set_fbo_shader
(lines 331-335): header, uniform declarations, the effect glsl, footer. -/
def fullSource (glsl : String) : String :=
  shader_header ++ shader_uniforms ++ glsl ++ shader_footer_effect

/-- Model of EffectFbo (lines 492-504): identity of the underlying color
buffer, fbo size, the presentation rectangle size and bound input texture
(texture_rectangle), and the currently bound fragment shader source. -/
structure EffectFbo where
  id : Nat
  size : Int × Int
  rectSize : Int × Int
  rectTex : Option Tex
  fs : String
deriving DecidableEq

/-- EffectFbo.set_fs (lines 497-504): assign the new fragment shader source;
when compilation fails, restore the old source and raise Exception. The
compile outcome is abstracted by the predicate ok; a raise is Except.error
carrying the fbo as left behind (shader restored). -/
def set_fs (ok : String → Bool) (f : EffectFbo) (value : String) : Except EffectFbo EffectFbo :=
  let old_value := f.fs
  let f1 : EffectFbo := { f with fs := value }
  if ok value then Except.ok f1 else Except.error { f1 with fs := old_value }

/-- Model of an EffectBase instance as used by refresh_fbo_setup: its glsl
string and the identity of the fbo its fbo property currently holds
(none when unbound). -/
structure Effect where
  glsl : String
  fbo : Option Nat
deriving DecidableEq

/-- State of an EffectWidget for the chain claims: widget size, pre-chain fbo
size, clearing-rectangle size, the fbo list, identities of effect fbos on the
widget canvas, the output texture property, a fresh-identity counter, and the
effects list. -/
structure EWState where
  size : Int × Int
  fboSize : Int × Int
  fboRectSize : Int × Int
  fboList : List EffectFbo
  canvasFbos : List Nat
  texture : Option Tex
  nextId : Nat
  effects : List Effect
deriving DecidableEq

/-- One new EffectFbo as created in refresh_fbo_setup (lines 580-588): seeded
at the widget size, presentation rectangle at the same size, no input texture
bound yet, framework default shader. -/
def newFbo (sz : Int × Int) (id : Nat) : EffectFbo :=
  { id := id, size := sz, rectSize := sz, rectTex := none, fs := default_fs }

/-- While-loop of lines 579-588 appending one fbo per missing effect; n is the
number still to add; each new fbo is appended to the list and to the canvas. -/
def growAux (sz : Int × Int) : List EffectFbo → List Nat → Nat → Nat →
    List EffectFbo × List Nat × Nat
| lst, canvas, nid, 0 => (lst, canvas, nid)
| lst, canvas, nid, n+1 =>
    growAux sz (lst ++ [newFbo sz nid]) (canvas ++ [nid]) (nid+1) n

/-- While-loop of lines 589-591 popping trailing fbos and removing them from
the canvas; n is the number still to remove. -/
def shrinkAux : List EffectFbo → List Nat → Nat → List EffectFbo × List Nat
| lst, canvas, 0 => (lst, canvas)
| lst, canvas, n+1 =>
    match lst.getLast? with
    | some old_fbo => shrinkAux lst.dropLast (canvas.erase old_fbo.id) n
    | none => (lst, canvas)

/-- Inner step of the loop at lines 605-607: every fbo after the first presents
the texture of the fbo before it; prev is the identity of that previous fbo. -/
def wireAux (prev : Nat) : List EffectFbo → List EffectFbo
| [] => []
| f :: rest => { f with rectTex := some (Tex.stage prev) } :: wireAux f.id rest

/-- Loop of lines 605-607: for i in range(1, len(fbo_list)), set
fbo_list[i].texture_rectangle.texture to fbo_list[i-1].texture. The first
element is not touched here (it is wired later, line 615). -/
def wire : List EffectFbo → List EffectFbo
| [] => []
| f0 :: rest => f0 :: wireAux f0.id rest

/-- Loop of lines 610-613: assigning effect.fbo = fbo dispatches
EffectBase.set_fbo_shader (lines 331-335) when the stored value changes, which
calls set_fs with the assembled source; a compile failure raises out of the
loop, carrying the partially updated lists (earlier pairs already rebound,
the failing fbo left with its old shader, later pairs untouched). -/
def bindLoop (ok : String → Bool) :
    List Effect → List EffectFbo →
    Except (List Effect × List EffectFbo) (List Effect × List EffectFbo)
| [], fbos => Except.ok ([], fbos)
| effs, [] => Except.ok (effs, [])
| e :: es, f :: fs =>
    if e.fbo = some f.id then
      match bindLoop ok es fs with
      | Except.ok (es', fs') => Except.ok (e :: es', f :: fs')
      | Except.error (es', fs') => Except.error (e :: es', f :: fs')
    else
      let e' : Effect := { e with fbo := some f.id }
      match set_fs ok f (fullSource e.glsl) with
      | Except.error f' => Except.error (e' :: es, f' :: fs)
      | Except.ok f' =>
        match bindLoop ok es fs with
        | Except.ok (es', fs') => Except.ok (e' :: es', f' :: fs')
        | Except.error (es', fs') => Except.error (e' :: es', f' :: fs')

/-- Line 615: the first fbo presents the pre-chain fbo texture. -/
def setHead : List EffectFbo → List EffectFbo
| [] => []
| f :: rest => { f with rectTex := some Tex.preChain } :: rest

/-- EffectWidget.refresh_fbo_setup (lines 577-616), with shader compilation
abstracted by ok. A raised exception is modelled as Except.error carrying the
widget state at the raise point (all in-place mutations up to the raise kept,
texture left at its previous value). -/
def refresh_fbo_setup (ok : String → Bool) (s : EWState) : Except EWState EWState :=
  let g := growAux s.size s.fboList s.canvasFbos s.nextId
      (s.effects.length - s.fboList.length)
  let t := shrinkAux g.fst g.snd.fst (g.fst.length - s.effects.length)
  let lst2 := t.fst.map (fun f => { f with size := s.size, rectSize := s.size })
  let s1 : EWState := { s with
    fboList := lst2
    canvasFbos := t.snd
    nextId := g.snd.snd
    fboSize := s.size
    fboRectSize := s.size }
  if lst2.length = 0 then
    Except.ok { s1 with texture := some Tex.preChain }
  else
    match bindLoop ok s.effects (wire lst2) with
    | Except.error p => Except.error { s1 with effects := p.1, fboList := p.2 }
    | Except.ok p =>
      let lst4 := setHead p.2
      match lst4.getLast? with
      | some last =>
        Except.ok { s1 with
          effects := p.1
          fboList := lst4
          texture := some (Tex.stage last.id) }
      | none => Except.ok { s1 with effects := p.1, fboList := lst4 }

/-- EffectWidget.on_size (lines 556-559): set the pre-chain fbo size and the
clearing rectangle size to the widget size, then refresh_fbo_setup. No
validation or clamping of the requested size happens anywhere on this path. -/
def on_size (ok : String → Bool) (s : EWState) : Except EWState EWState :=
  refresh_fbo_setup ok { s with fboSize := s.size, fboRectSize := s.size }

/-- Widget state after a call, whether it returned normally or raised. -/
def outState : Except EWState EWState → EWState
| Except.ok s => s
| Except.error s => s

/-- Pair left by bindLoop, whether it returned normally or raised. -/
def outPair (r : Except (List Effect × List EffectFbo) (List Effect × List EffectFbo)) :
    List Effect × List EffectFbo :=
  match r with
  | Except.ok p => p
  | Except.error p => p

/-- True exactly when the call raised an exception. -/
def raised : Except EWState EWState → Bool
| Except.ok _ => false
| Except.error _ => true

/-- Python rendering of float(n) for an integral n, as inserted by str.format
in the do_glsl methods (for example float(10) renders as 10.0). -/
def pyFloatStr (n : Int) : String :=
  toString n ++ ".0"

/-- Result of effect_mix.format(a, b, c) (template at lines 136-141): the
doubled braces of the template render as literal braces and the three slots
receive the three channel letters. -/
def effect_mix_fmt (a b c : String) : String :=
  "\nvec4 effect(vec4 color, sampler2D texture, vec2 tex_coords, vec2 coords)\n\x7b\n    return vec4(color." ++ a ++ ", color." ++ b ++ ", color." ++ c ++ ", 1.0);\n\x7d\n"

/-- Result of effect_pixelate.format(v) (template at lines 245-254). -/
def effect_pixelate_fmt (v : String) : String :=
  "\nvec4 effect(vec4 vcolor, sampler2D texture, vec2 texcoord, vec2 pixel_coords)\n\x7b\n    vec2 pixelSize = " ++ v ++ " / resolution;\n\n    vec2 xy = floor(texcoord/pixelSize)*pixelSize + pixelSize/2.0;\n\n    return texture2D(texture, xy);\n\x7d\n"

/-- Result of effect_blur_h.format(v) (template at lines 143-168): a nine tap
kernel with weights 0.05, 0.09, 0.12, 0.15, 0.16, 0.15, 0.12, 0.09, 0.05 whose
taps move along the x texture coordinate only. -/
def effect_blur_h_fmt (v : String) : String :=
  "\nvec4 effect(vec4 color, sampler2D texture, vec2 tex_coords, vec2 coords)\n\x7b\n    float dt = (" ++ v ++ " / 4.0) * 1.0 / resolution.x;\n    vec4 sum = vec4(0.0);\n    sum += texture2D(texture, vec2(tex_coords.x - 4.0*dt, tex_coords.y))\n                     * 0.05;\n    sum += texture2D(texture, vec2(tex_coords.x - 3.0*dt, tex_coords.y))\n                     * 0.09;\n    sum += texture2D(texture, vec2(tex_coords.x - 2.0*dt, tex_coords.y))\n                     * 0.12;\n    sum += texture2D(texture, vec2(tex_coords.x - dt, tex_coords.y))\n                     * 0.15;\n    sum += texture2D(texture, vec2(tex_coords.x, tex_coords.y))\n                     * 0.16;\n    sum += texture2D(texture, vec2(tex_coords.x + dt, tex_coords.y))\n                     * 0.15;\n    sum += texture2D(texture, vec2(tex_coords.x + 2.0*dt, tex_coords.y))\n                     * 0.12;\n    sum += texture2D(texture, vec2(tex_coords.x + 3.0*dt, tex_coords.y))\n                     * 0.09;\n    sum += texture2D(texture, vec2(tex_coords.x + 4.0*dt, tex_coords.y))\n                     * 0.05;\n    return sum;\n\x7d\n"

/-- Result of effect_blur_v.format(v) (template at lines 170-196): same nine
weights but the taps move along the y texture coordinate. This template exists
in the module yet is never used by any class. -/
def effect_blur_v_fmt (v : String) : String :=
  "\nvec4 effect(vec4 color, sampler2D texture, vec2 tex_coords, vec2 coords)\n\x7b\n    float dt = (" ++ v ++ " / 4.0)\n                     * 1.0 / resolution.x;\n    vec4 sum = vec4(0.0);\n    sum += texture2D(texture, vec2(tex_coords.x, tex_coords.y - 4.0*dt))\n                     * 0.05;\n    sum += texture2D(texture, vec2(tex_coords.x, tex_coords.y - 3.0*dt))\n                     * 0.09;\n    sum += texture2D(texture, vec2(tex_coords.x, tex_coords.y - 2.0*dt))\n                     * 0.12;\n    sum += texture2D(texture, vec2(tex_coords.x, tex_coords.y - dt))\n                     * 0.15;\n    sum += texture2D(texture, vec2(tex_coords.x, tex_coords.y))\n                     * 0.16;\n    sum += texture2D(texture, vec2(tex_coords.x, tex_coords.y + dt))\n                     * 0.15;\n    sum += texture2D(texture, vec2(tex_coords.x, tex_coords.y + 2.0*dt))\n                     * 0.12;\n    sum += texture2D(texture, vec2(tex_coords.x, tex_coords.y + 3.0*dt))\n                     * 0.09;\n    sum += texture2D(texture, vec2(tex_coords.x, tex_coords.y + 4.0*dt))\n                     * 0.05;\n    return sum;\n\x7d\n"

/-- Python exceptions raised inside ChannelMixEffect.do_glsl: a KeyError from
the dict lookup on an order entry outside 0, 1, 2, or an IndexError from
str.format when fewer letters than template slots are supplied. -/
inductive PyErr where
| keyError : Int → PyErr
| indexError : PyErr
deriving DecidableEq

/-- The list comprehension of line 433, left to right: look each order entry up
in the dict mapping 0, 1, 2 to x, y, z; the first entry outside the dict keys
raises KeyError with that entry. -/
def mixLetters : List Int → Except PyErr (List String)
| [] => Except.ok []
| i :: rest =>
    if i = 0 then (mixLetters rest).map (fun ls => "x" :: ls)
    else if i = 1 then (mixLetters rest).map (fun ls => "y" :: ls)
    else if i = 2 then (mixLetters rest).map (fun ls => "z" :: ls)
    else Except.error (PyErr.keyError i)

/-- Model of ChannelMixEffect (lines 417-434): the order list property and the
generated glsl string. -/
structure ChannelMixEffect where
  order : List Int
  glsl : String
deriving DecidableEq

/-- ChannelMixEffect.do_glsl (lines 432-434): build the letter list, then
effect_mix.format(*letters). The format call needs three letters (the template
has three slots) and raises IndexError when given fewer; extra letters are
ignored. On Except.error nothing was assigned, so glsl is unchanged. -/
def ChannelMixEffect.do_glsl (e : ChannelMixEffect) : Except PyErr ChannelMixEffect :=
  match mixLetters e.order with
  | Except.error err => Except.error err
  | Except.ok (a :: b :: c :: _) => Except.ok { e with glsl := effect_mix_fmt a b c }
  | Except.ok _ => Except.error PyErr.indexError

/-- Assignment to the order property (line 421). Kivy dispatches the handler
named on_order when one is defined; ChannelMixEffect defines only on_size
(lines 429-430), and the class has no size property, so nothing beyond the
store runs and glsl is left as it was. -/
def ChannelMixEffect.set_order (e : ChannelMixEffect) (v : List Int) : ChannelMixEffect :=
  { e with order := v }

/-- ChannelMixEffect as constructed with the default order [1, 2, 0]: __init__
(lines 425-427) runs do_glsl once, which succeeds for the default order. -/
def channelMixInit : ChannelMixEffect :=
  match ChannelMixEffect.do_glsl { order := [1, 2, 0], glsl := effect_trivial } with
  | Except.ok e => e
  | Except.error _ => { order := [1, 2, 0], glsl := effect_trivial }

/-- Model of PixelateEffect (lines 437-450): pixel_size property (integral
values modelled) and the generated glsl. -/
structure PixelateEffect where
  pixel_size : Int
  glsl : String
deriving DecidableEq

/-- PixelateEffect.do_glsl (lines 449-450): glsl is
effect_pixelate.format(float(pixel_size)). -/
def PixelateEffect.do_glsl (e : PixelateEffect) : PixelateEffect :=
  { e with glsl := effect_pixelate_fmt (pyFloatStr e.pixel_size) }

/-- Assignment to pixel_size (line 440): kivy stores the value and dispatches
on_pixel_size (lines 446-447), which runs do_glsl before the assignment
returns. -/
def PixelateEffect.set_pixel_size (e : PixelateEffect) (v : Int) : PixelateEffect :=
  PixelateEffect.do_glsl { e with pixel_size := v }

/-- Model of HorizontalBlurEffect (lines 453-466). -/
structure HorizontalBlurEffect where
  size : Int
  glsl : String
deriving DecidableEq

/-- HorizontalBlurEffect.do_glsl (lines 465-466): glsl is
effect_blur_h.format(float(size)). -/
def HorizontalBlurEffect.do_glsl (e : HorizontalBlurEffect) : HorizontalBlurEffect :=
  { e with glsl := effect_blur_h_fmt (pyFloatStr e.size) }

/-- Assignment to size on HorizontalBlurEffect (line 456): kivy stores the
value and dispatches on_size (lines 462-463), which runs do_glsl. -/
def HorizontalBlurEffect.set_size (e : HorizontalBlurEffect) (v : Int) : HorizontalBlurEffect :=
  HorizontalBlurEffect.do_glsl { e with size := v }

/-- Model of VerticalBlurEffect (lines 469-482). -/
structure VerticalBlurEffect where
  size : Int
  glsl : String
deriving DecidableEq

/-- VerticalBlurEffect.do_glsl (lines 481-482): the source reads
effect_blur_h.format(float(self.size)) - the HORIZONTAL template - although
the module also defines effect_blur_v and the docstring says the class blurs
vertically. -/
def VerticalBlurEffect.do_glsl (e : VerticalBlurEffect) : VerticalBlurEffect :=
  { e with glsl := effect_blur_h_fmt (pyFloatStr e.size) }

/-- Assignment to size on VerticalBlurEffect (line 472): kivy stores the value
and dispatches on_size (lines 478-479), which runs do_glsl. -/
def VerticalBlurEffect.set_size (e : VerticalBlurEffect) (v : Int) : VerticalBlurEffect :=
  VerticalBlurEffect.do_glsl { e with size := v }

/-- The one callback the widget ever binds to an effect glsl property:
EffectWidget.refresh_fbo_setup itself (line 634), the full reconciliation of
the whole chain. -/
inductive GlslCallback where
| refresh_fbo_setup_cb : GlslCallback
deriving DecidableEq

/-- Observer entry created by effect.bind(glsl=self.refresh_fbo_setup). -/
def glslPair (e : Nat) : Nat × GlslCallback :=
  (e, GlslCallback.refresh_fbo_setup_cb)

/-- State for _update_glsl_bindings (lines 618-634): the effects list and the
_bound_effects list (effect objects modelled by identity numbers), plus the
set of live glsl observer registrations across all effects. -/
structure BindState where
  effects : List Nat
  bound_effects : List Nat
  observers : List (Nat × GlslCallback)
deriving DecidableEq

/-- First loop of lines 624-626: for each effect in _bound_effects that is no
longer in effects, call effect.unbind(glsl=refresh_fbo_setup), which removes
one matching observer registration (or nothing when none exists). -/
def unbindPass (effects : List Nat) : List Nat → List (Nat × GlslCallback) → List (Nat × GlslCallback)
| [], obs => obs
| e :: rest, obs =>
    unbindPass effects rest (if e ∈ effects then obs else obs.erase (glslPair e))

/-- Second loop of lines 631-634 over the local filtered list: for each effect
of effects not yet in the local list, append it to the local list and call
effect.bind(glsl=refresh_fbo_setup), appending an observer registration. -/
def bindPass : List Nat → List Nat → List (Nat × GlslCallback) → List Nat × List (Nat × GlslCallback)
| [], bound, obs => (bound, obs)
| e :: rest, bound, obs =>
    if e ∈ bound then bindPass rest bound obs
    else bindPass rest (bound ++ [e]) (obs ++ [glslPair e])

/-- EffectWidget._update_glsl_bindings (lines 618-634). Note the source
rebinds the LOCAL name bound_effects to a fresh filtered list (line 628), so
the appends of line 633 land in that local list and the _bound_effects
property of the widget is never modified by this method. -/
def _update_glsl_bindings (s : BindState) : BindState :=
  let obs1 := unbindPass s.effects s.bound_effects s.observers
  let kept := s.bound_effects.filter (fun e => decide (e ∈ s.effects))
  let r := bindPass s.effects kept obs1
  { s with observers := r.snd }

/-- Callbacks that a change of the glsl property of effect e triggers: the
observer registrations recorded for e. -/
def glslChangeTriggers (s : BindState) (e : Nat) : List GlslCallback :=
  (s.observers.filter (fun p => p.fst == e)).map (fun p => p.snd)

/-- Uniform slots of one render context: the time and resolution values most
recently written into it, none when never written. -/
structure Uniforms where
  time : Option Int
  resolution : Option (Int × Int)
deriving DecidableEq

/-- Uniform state of the widget: self.canvas (the outer render context that
composites the final texture), self.fbo (the pre-chain buffer receiving the
child content), and one entry per fbo of fbo_list. -/
structure TickState where
  canvasU : Uniforms
  fboU : Uniforms
  fboListU : List Uniforms
deriving DecidableEq

/-- EffectWidget.update_glsl (lines 561-568), run on every tick: writes time
(seconds since program start) and resolution (widget width and height as
floats) into self.canvas and into every fbo of fbo_list. The pre-chain
self.fbo is not written. Time is abstracted as an opaque integral value. -/
def update_glsl (t : Int) (res : Int × Int) (s : TickState) : TickState :=
  { canvasU := { time := some t, resolution := some res }
    fboU := s.fboU
    fboListU := s.fboListU.map (fun _ => { time := some t, resolution := some res }) }

/-- Projection of an EffectFbo on everything except the bound shader: used to
state that the shader binding loop touches only shader sources. -/
def sansFs (f : EffectFbo) : Nat × (Int × Int) × (Int × Int) × Option Tex :=
  (f.id, f.size, f.rectSize, f.rectTex)

/-- Projection of an EffectFbo on its two sizes: fbo size and presentation
rectangle size. -/
def szProj (f : EffectFbo) : (Int × Int) × (Int × Int) :=
  (f.size, f.rectSize)

/-- Chain predicate: each fbo of the list presents the texture of the fbo
before it, starting from the fbo with identity p. -/
def chainedFrom : Nat → List EffectFbo → Prop
| _, [] => True
| p, f :: rest => f.rectTex = some (Tex.stage p) ∧ chainedFrom f.id rest

/-- Compile predicate accepting every source, for concrete runs without
compile failures. -/
def okAll : String → Bool := fun _ => true

/-- Concrete widget state with two fresh effects, for instantiating the chain
theorems. -/
def c1demo : EWState :=
  { size := (100, 100), fboSize := (0, 0), fboRectSize := (0, 0), fboList := [],
    canvasFbos := [], texture := none, nextId := 0,
    effects := [{ glsl := "a", fbo := none }, { glsl := "b", fbo := none }] }

/-- State produced by refresh_fbo_setup on c1demo. -/
def c1res : EWState := outState (refresh_fbo_setup okAll c1demo)

/-- Concrete widget state with two fresh effects, for the final output claim. -/
def c7demo : EWState :=
  { size := (80, 60), fboSize := (0, 0), fboRectSize := (0, 0), fboList := [],
    canvasFbos := [], texture := none, nextId := 0,
    effects := [{ glsl := "c", fbo := none }, { glsl := "d", fbo := none }] }

/-- State produced by refresh_fbo_setup on c7demo. -/
def c7res : EWState := outState (refresh_fbo_setup okAll c7demo)

/-- Compile predicate that rejects exactly the assembled source of the glsl
string bad, for forcing a compile failure on stage 0 only. -/
def okC3 : String → Bool := fun src => !(src == fullSource ("bad"))

/-- Concrete widget state whose first effect fails to compile under okC3 and
whose second would compile. -/
def c3demo : EWState :=
  { size := (100, 100), fboSize := (0, 0), fboRectSize := (0, 0), fboList := [],
    canvasFbos := [], texture := none, nextId := 0,
    effects := [{ glsl := "bad", fbo := none }, { glsl := "good", fbo := none }] }

/-- State left behind by the raising refresh_fbo_setup run on c3demo. -/
def c3res : EWState := outState (refresh_fbo_setup okC3 c3demo)

/-- A concrete fbo with a previously bound shader, for the set_fs rollback
instance. -/
def c3fbo : EffectFbo :=
  { id := 9, size := (1, 1), rectSize := (1, 1), rectTex := none, fs := "prior" }

/-- Concrete widget state requesting a non-positive resize target. -/
def c9demo : EWState :=
  { size := (0, -5), fboSize := (50, 50), fboRectSize := (50, 50), fboList := [],
    canvasFbos := [], texture := none, nextId := 0,
    effects := [{ glsl := "e", fbo := none }] }

/-- State produced by on_size on c9demo. -/
def c9res : EWState := outState (on_size okAll c9demo)

/-- Concrete binding state: effect 1 leaves the effects list, effect 2 stays,
effect 3 is new. -/
def c4demo : BindState :=
  { effects := [2, 3], bound_effects := [1, 2], observers := [glslPair 1, glslPair 2] }

/-- Binding state produced by _update_glsl_bindings on c4demo. -/
def c4res : BindState := _update_glsl_bindings c4demo

/-- Concrete binding state with one fresh effect and no prior subscriptions. -/
def c4cexDemo : BindState :=
  { effects := [7], bound_effects := [], observers := [] }

/-- Concrete uniform state with nothing written yet and one chain stage. -/
def c8demo : TickState :=
  { canvasU := { time := none, resolution := none }
    fboU := { time := none, resolution := none }
    fboListU := [{ time := none, resolution := none }] }

theorem growAux_fst_length (sz : Int × Int) :
    ∀ (n : Nat) (lst : List EffectFbo) (canvas : List Nat) (nid : Nat),
    (growAux sz lst canvas nid n).fst.length = lst.length + n := by
  intro n
  induction n with
  | zero => intro lst canvas nid; simp [growAux]
  | succ k ih =>
      intro lst canvas nid
      simp only [growAux]
      rw [ih]
      simp
      omega

theorem shrinkAux_fst_length :
    ∀ (n : Nat) (lst : List EffectFbo) (canvas : List Nat),
    (shrinkAux lst canvas n).fst.length = lst.length - n := by
  intro n
  induction n with
  | zero => intro lst canvas; simp [shrinkAux]
  | succ k ih =>
      intro lst canvas
      cases hl : lst.getLast? with
      | none =>
          have hnil : lst = [] := by
            cases lst with
            | nil => rfl
            | cons a as => simp at hl
          subst hnil
          simp [shrinkAux]
      | some f =>
          simp only [shrinkAux, hl]
          rw [ih, List.length_dropLast]
          omega

theorem wireAux_length (p : Nat) (l : List EffectFbo) :
    (wireAux p l).length = l.length := by
  induction l generalizing p with
  | nil => rfl
  | cons f rest ih => simp [wireAux, ih]

theorem wire_length (l : List EffectFbo) : (wire l).length = l.length := by
  cases l with
  | nil => rfl
  | cons f rest => simp [wire, wireAux_length]

theorem setHead_length (l : List EffectFbo) : (setHead l).length = l.length := by
  cases l with
  | nil => rfl
  | cons f rest => simp [setHead]

theorem bindLoop_lengths (ok : String → Bool) :
    ∀ (es : List Effect) (fs : List EffectFbo),
    (outPair (bindLoop ok es fs)).fst.length = es.length ∧
    (outPair (bindLoop ok es fs)).snd.length = fs.length := by
  intro es
  induction es with
  | nil => intro fs; simp [bindLoop, outPair]
  | cons e es ih =>
      intro fs
      cases fs with
      | nil => simp [bindLoop, outPair]
      | cons f fs =>
          have hrec := ih fs
          by_cases hb : e.fbo = some f.id
          · cases hr : bindLoop ok es fs with
            | ok p =>
                rw [hr] at hrec
                cases p with
                | mk a b =>
                    simp [outPair] at hrec
                    simp [bindLoop, hb, hr, outPair, hrec]
            | error p =>
                rw [hr] at hrec
                cases p with
                | mk a b =>
                    simp [outPair] at hrec
                    simp [bindLoop, hb, hr, outPair, hrec]
          · by_cases hok : ok (fullSource e.glsl) = true
            · cases hr : bindLoop ok es fs with
              | ok p =>
                  rw [hr] at hrec
                  cases p with
                  | mk a b =>
                      simp [outPair] at hrec
                      simp [bindLoop, hb, hr, set_fs, hok, outPair, hrec]
              | error p =>
                  rw [hr] at hrec
                  cases p with
                  | mk a b =>
                      simp [outPair] at hrec
                      simp [bindLoop, hb, hr, set_fs, hok, outPair, hrec]
            · simp [bindLoop, hb, set_fs, hok, outPair]

/-- C2: after refresh_fbo_setup returns, the fbo list has exactly one fbo per
effect (fbos were appended while too few and popped while too many), and the
effects list length is unchanged; this holds for every prior fbo list and
every effects list, whether the call returns normally or raises. -/
theorem effectwidget_c2_length (ok : String → Bool) (s : EWState) :
    (outState (refresh_fbo_setup ok s)).fboList.length =
      (outState (refresh_fbo_setup ok s)).effects.length ∧
    (outState (refresh_fbo_setup ok s)).effects.length = s.effects.length := by
  simp only [refresh_fbo_setup]
  set g := growAux s.size s.fboList s.canvasFbos s.nextId
      (s.effects.length - s.fboList.length) with hg
  set t := shrinkAux g.fst g.snd.fst (g.fst.length - s.effects.length) with ht
  set lst2 := t.fst.map (fun f => { f with size := s.size, rectSize := s.size }) with hlst2
  have hlen : lst2.length = s.effects.length := by
    rw [hlst2, List.length_map, ht, shrinkAux_fst_length, hg, growAux_fst_length]
    omega
  split
  · simp [outState, hlen]
  · split
    · next p heq =>
        have hbl := bindLoop_lengths ok s.effects (wire lst2)
        rw [heq] at hbl
        simp [outPair] at hbl
        simp [outState, hbl, wire_length, hlen]
    · next p heq =>
        have hbl := bindLoop_lengths ok s.effects (wire lst2)
        rw [heq] at hbl
        simp [outPair] at hbl
        split
        · simp [outState, setHead_length, hbl, wire_length, hlen]
        · simp [outState, setHead_length, hbl, wire_length, hlen]

theorem wireAux_chainedFrom :
    ∀ (l : List EffectFbo) (p : Nat), chainedFrom p (wireAux p l) := by
  intro l
  induction l with
  | nil => intro p; simp [wireAux, chainedFrom]
  | cons f rest ih =>
      intro p
      exact ⟨rfl, ih f.id⟩

theorem chainedFrom_congr :
    ∀ (l₁ l₂ : List EffectFbo), l₁.map sansFs = l₂.map sansFs →
    ∀ (p : Nat), chainedFrom p l₁ → chainedFrom p l₂ := by
  intro l₁
  induction l₁ with
  | nil =>
      intro l₂ hm p hc
      cases l₂ with
      | nil => simp [chainedFrom]
      | cons b bs => simp at hm
  | cons a as ih =>
      intro l₂ hm p hc
      cases l₂ with
      | nil => simp at hm
      | cons b bs =>
          simp only [List.map_cons, List.cons.injEq, sansFs, Prod.mk.injEq] at hm
          obtain ⟨⟨hid, _, _, hrt⟩, htail⟩ := hm
          simp only [chainedFrom] at hc ⊢
          refine ⟨by rw [← hrt]; exact hc.1, ?_⟩
          rw [← hid]
          exact ih bs htail a.id hc.2

theorem chained_cons_adjacent :
    ∀ (rest : List EffectFbo) (h : EffectFbo), chainedFrom h.id rest →
    ∀ (i : Nat) (hi : i + 1 < (h :: rest).length),
    (((h :: rest).get ⟨i + 1, hi⟩)).rectTex =
      some (Tex.stage (((h :: rest).get ⟨i, Nat.lt_of_succ_lt hi⟩)).id) := by
  intro rest
  induction rest with
  | nil =>
      intro h hc i hi
      simp at hi
  | cons r rest' ih =>
      intro h hc i hi
      simp only [chainedFrom] at hc
      cases i with
      | zero => simpa using hc.1
      | succ j =>
          have hj : j + 1 < (r :: rest').length := by
            simpa using Nat.lt_of_succ_lt_succ hi
          simpa using ih r hc.2 j hj

theorem bindLoop_map_sansFs (ok : String → Bool) :
    ∀ (es : List Effect) (fs : List EffectFbo),
    (outPair (bindLoop ok es fs)).snd.map sansFs = fs.map sansFs := by
  intro es
  induction es with
  | nil => intro fs; simp [bindLoop, outPair]
  | cons e es ih =>
      intro fs
      cases fs with
      | nil => simp [bindLoop, outPair]
      | cons f fs =>
          have hrec := ih fs
          by_cases hb : e.fbo = some f.id
          · cases hr : bindLoop ok es fs with
            | ok p =>
                rw [hr] at hrec
                cases p with
                | mk a b =>
                    simp [outPair] at hrec
                    simp [bindLoop, hb, hr, outPair, hrec]
            | error p =>
                rw [hr] at hrec
                cases p with
                | mk a b =>
                    simp [outPair] at hrec
                    simp [bindLoop, hb, hr, outPair, hrec]
          · by_cases hok : ok (fullSource e.glsl) = true
            · cases hr : bindLoop ok es fs with
              | ok p =>
                  rw [hr] at hrec
                  cases p with
                  | mk a b =>
                      simp [outPair] at hrec
                      simp [bindLoop, hb, hr, set_fs, hok, outPair, hrec, sansFs]
              | error p =>
                  rw [hr] at hrec
                  cases p with
                  | mk a b =>
                      simp [outPair] at hrec
                      simp [bindLoop, hb, hr, set_fs, hok, outPair, hrec, sansFs]
            · simp [bindLoop, hb, set_fs, hok, outPair, sansFs]

theorem wire_chain (l : List EffectFbo) (hne : l ≠ []) :
    ∃ a T, wire l = a :: T ∧ chainedFrom a.id T := by
  cases l with
  | nil => exact absurd rfl hne
  | cons f rest => exact ⟨f, wireAux f.id rest, rfl, wireAux_chainedFrom rest f.id⟩

theorem refresh_ok_chain (ok : String → Bool) (s s' : EWState)
    (h : refresh_fbo_setup ok s = Except.ok s') :
    s'.fboList = [] ∨ ∃ (h0 : EffectFbo) (rest : List EffectFbo),
      s'.fboList = h0 :: rest ∧ h0.rectTex = some Tex.preChain ∧
      chainedFrom h0.id rest := by
  simp only [refresh_fbo_setup] at h
  set g := growAux s.size s.fboList s.canvasFbos s.nextId
      (s.effects.length - s.fboList.length) with hg
  set t := shrinkAux g.fst g.snd.fst (g.fst.length - s.effects.length) with ht
  set lst2 := t.fst.map (fun f => { f with size := s.size, rectSize := s.size }) with hlst2
  split at h
  · next hzero =>
      left
      obtain rfl := (Except.ok.injEq _ _).mp h
      simpa using List.length_eq_zero.mp hzero
  · next hnz =>
      have hne2 : lst2 ≠ [] := by
        intro hcon
        rw [hcon] at hnz
        simp at hnz
      obtain ⟨a, T, hwire, hchW⟩ := wire_chain lst2 hne2
      right
      split at h
      · next p heq => simp at h
      · next p heq =>
          have hms := bindLoop_map_sansFs ok s.effects (wire lst2)
          rw [heq] at hms
          simp only [outPair] at hms
          rw [hwire] at hms
          cases hp2 : p.snd with
          | nil =>
              rw [hp2] at hms
              simp at hms
          | cons b bs =>
              rw [hp2] at hms
              simp only [List.map_cons, List.cons.injEq] at hms
              obtain ⟨hhead, htail⟩ := hms
              have hid : b.id = a.id := by
                simpa [sansFs, Prod.mk.injEq] using congrArg Prod.fst hhead
              have hch : chainedFrom b.id bs := by
                rw [hid]
                exact chainedFrom_congr T bs htail.symm a.id hchW
              have hfl : s'.fboList = setHead p.snd := by
                split at h
                · next last hlast =>
                    obtain rfl := (Except.ok.injEq _ _).mp h
                    rfl
                · next hlast =>
                    obtain rfl := (Except.ok.injEq _ _).mp h
                    rfl
              refine ⟨{ b with rectTex := some Tex.preChain }, bs, ?_, rfl, ?_⟩
              · rw [hfl, hp2]
                rfl
              · exact hch

/-- C1: after refresh_fbo_setup completes normally on a widget with a
non-empty effects list, every fbo_list entry past the first presents the
texture of the entry before it, and fbo_list[0] presents the pre-chain fbo
texture (self.fbo.texture). -/
theorem effectwidget_c1_wiring (ok : String → Bool) (s s' : EWState)
    (hok : refresh_fbo_setup ok s = Except.ok s') (hne : s.effects ≠ []) :
    (∀ (i : Nat) (hi : i + 1 < s'.fboList.length),
      ((s'.fboList.get ⟨i + 1, hi⟩)).rectTex =
        some (Tex.stage ((s'.fboList.get ⟨i, Nat.lt_of_succ_lt hi⟩)).id)) ∧
    (∀ (hp : 0 < s'.fboList.length),
      ((s'.fboList.get ⟨0, hp⟩)).rectTex = some Tex.preChain) := by
  rcases refresh_ok_chain ok s s' hok with hnil | ⟨h0, rest, hL, hrt, hch⟩
  · constructor
    · intro i hi; rw [hnil] at hi; simp at hi
    · intro hp; rw [hnil] at hp; simp at hp
  · rw [hL]
    constructor
    · intro i hi
      have hid : h0.id = h0.id := rfl
      exact chained_cons_adjacent rest h0 hch i hi
    · intro hp
      simpa using hrt

/-- Witness: the two stage run on c1demo, stage 1 presents the texture of
stage 0 and stage 0 presents the pre-chain texture. -/
theorem effectwidget_c1_wiring_witness :
    ((c1res.fboList.get ⟨1, by decide⟩).rectTex =
        some (Tex.stage ((c1res.fboList.get ⟨0, by decide⟩).id))) ∧
    ((c1res.fboList.get ⟨0, by decide⟩).rectTex = some Tex.preChain) := by
  have h := effectwidget_c1_wiring okAll c1demo c1res (by rfl) (by decide)
  exact ⟨h.1 0 (by decide), h.2 (by decide)⟩

/-- C7: after refresh_fbo_setup completes normally, the widget texture is the
pre-chain fbo texture with an empty fbo list when effects is empty, and is the
texture of the last fbo_list entry otherwise. -/
theorem effectwidget_c7_output (ok : String → Bool) (s s' : EWState)
    (h : refresh_fbo_setup ok s = Except.ok s') :
    (s.effects = [] → s'.texture = some Tex.preChain ∧ s'.fboList = []) ∧
    (s.effects ≠ [] →
      s'.texture = Option.map (fun f => Tex.stage f.id) s'.fboList.getLast?) := by
  simp only [refresh_fbo_setup] at h
  set g := growAux s.size s.fboList s.canvasFbos s.nextId
      (s.effects.length - s.fboList.length) with hg
  set t := shrinkAux g.fst g.snd.fst (g.fst.length - s.effects.length) with ht
  set lst2 := t.fst.map (fun f => { f with size := s.size, rectSize := s.size }) with hlst2
  have hlen : lst2.length = s.effects.length := by
    rw [hlst2, List.length_map, ht, shrinkAux_fst_length, hg, growAux_fst_length]
    omega
  split at h
  · next hzero =>
      obtain rfl := (Except.ok.injEq _ _).mp h
      constructor
      · intro _
        exact ⟨rfl, by simpa using List.length_eq_zero.mp hzero⟩
      · intro hne
        exfalso
        rw [hzero] at hlen
        exact hne (List.length_eq_zero.mp hlen.symm)
  · next hnz =>
      have hne : s.effects ≠ [] := by
        intro hcon
        rw [hcon] at hlen
        simp at hlen
        rw [hlen] at hnz
        simp at hnz
      split at h
      · next p heq => simp at h
      · next p heq =>
          split at h
          · next last hlast =>
              obtain rfl := (Except.ok.injEq _ _).mp h
              constructor
              · intro hemp
                exact absurd hemp hne
              · intro _
                show some (Tex.stage last.id) = _
                rw [hlast]
                rfl
          · next hlast =>
              exfalso
              have hbl := bindLoop_lengths ok s.effects (wire lst2)
              rw [heq] at hbl
              simp [outPair] at hbl
              rw [wire_length] at hbl
              have hnil : setHead p.snd = [] := by
                cases hsp : (setHead p.snd) with
                | nil => rfl
                | cons x xs =>
                    rw [hsp] at hlast
                    simp at hlast
              have hp0 : p.snd.length = 0 := by
                rw [← setHead_length p.snd, hnil]
                rfl
              rw [hp0] at hbl
              exact hnz hbl.2.symm

/-- Witness: on the two effect run c7res, the widget texture equals the
texture of the last fbo_list entry. -/
theorem effectwidget_c7_output_witness :
    c7res.texture = Option.map (fun f => Tex.stage f.id) c7res.fboList.getLast? :=
  (effectwidget_c7_output okAll c7demo c7res (by rfl)).2 (by decide)

/-- C3 amended: when setting a stage fragment shader fails to compile, the
previously bound source of that stage is restored and remains active, and no
other stage is altered by the failure; however the failure is reported by
raising an exception (set_fs raises after restoring), which aborts the shader
binding pass of the reconciliation, so the stages after the failing one are
left untouched rather than processed. Part one: a failing set_fs leaves the
fbo exactly as it was and raises. Part two: a raising binding pass stops at a
failing index k whose assembled source the compiler rejects, with the failing
fbo and every later fbo unchanged, and every effect past k unprocessed. -/
theorem effectwidget_c3_amended (ok : String → Bool) :
    (∀ (f : EffectFbo) (v : String), ok v = false → set_fs ok f v = Except.error f) ∧
    (∀ (es : List Effect) (fs : List EffectFbo) (es' : List Effect) (fs' : List EffectFbo),
      bindLoop ok es fs = Except.error (es', fs') →
      ∃ k, k < fs.length ∧ fs'.drop k = fs.drop k ∧
        es'.drop (k + 1) = es.drop (k + 1) ∧
        ∃ e, es.get? k = some e ∧ ok (fullSource e.glsl) = false) := by
  constructor
  · intro f v hv
    simp [set_fs, hv]
  · intro es
    induction es with
    | nil =>
        intro fs es' fs' h
        simp [bindLoop] at h
    | cons e es ih =>
        intro fs es' fs' h
        cases fs with
        | nil => simp [bindLoop] at h
        | cons f fs =>
            by_cases hb : e.fbo = some f.id
            · cases hr : bindLoop ok es fs with
              | ok p =>
                  cases p with
                  | mk a b =>
                      simp only [bindLoop, hb, if_true, hr] at h
                      simp at h
              | error p =>
                  cases p with
                  | mk a b =>
                      simp only [bindLoop, hb, if_true, hr] at h
                      injection h with h1
                      injection h1 with h1a h1b
                      subst h1a
                      subst h1b
                      obtain ⟨k, hk, hd, he, e₀, hget, hok0⟩ := ih fs a b hr
                      refine ⟨k + 1, by simpa using Nat.succ_lt_succ hk, ?_, ?_, e₀, ?_, hok0⟩
                      · simpa using hd
                      · simpa using he
                      · simpa using hget
            · by_cases hok : ok (fullSource e.glsl) = true
              · cases hr : bindLoop ok es fs with
                | ok p =>
                    cases p with
                    | mk a b =>
                        simp only [bindLoop, hb, if_false, set_fs, hok, if_true, hr] at h
                        simp at h
                | error p =>
                    cases p with
                    | mk a b =>
                        simp only [bindLoop, hb, if_false, set_fs, hok, if_true, hr] at h
                        injection h with h1
                        injection h1 with h1a h1b
                        subst h1a
                        subst h1b
                        obtain ⟨k, hk, hd, he, e₀, hget, hok0⟩ := ih fs a b hr
                        refine ⟨k + 1, by simpa using Nat.succ_lt_succ hk, ?_, ?_, e₀, ?_, hok0⟩
                        · simpa using hd
                        · simpa using he
                        · simpa using hget
              · have hokf : ok (fullSource e.glsl) = false := by
                  simpa using hok
                simp only [bindLoop, hb, if_false, set_fs, hokf] at h
                injection h with h1
                injection h1 with h1a h1b
                subst h1a
                subst h1b
                refine ⟨0, by simp, ?_, ?_, e, rfl, hokf⟩
                · rfl
                · rfl

/-- Witness for the amended C3 theorem: a rejecting compiler makes set_fs
return through the error path with the fbo unchanged. -/
theorem effectwidget_c3_amended_witness :
    set_fs (fun _ => false) c3fbo ("anything") = Except.error c3fbo :=
  (effectwidget_c3_amended (fun _ => false)).1 c3fbo ("anything") rfl

/-- Counterexample to C3 as stated: on c3demo, where stage 0 fails to compile
and stage 1 would compile (okC3 accepts the stage 1 source), refresh_fbo_setup
raises instead of returning (the failure is fatal to the reconciliation call),
and the reconciliation did not continue for the remaining stage: stage 1 is
left with the framework default shader and its effect was never bound to its
fbo. -/
theorem effectwidget_c3_cex :
    raised (refresh_fbo_setup okC3 c3demo) = true ∧
    okC3 (fullSource ("good")) = true ∧
    ((c3res.fboList.get ⟨1, by decide⟩).fs = default_fs) ∧
    ((c3res.effects.get ⟨1, by decide⟩).fbo = none) :=
  ⟨by decide, by decide, by decide, by decide⟩

theorem bindLoop_map_proj {β : Type} (proj : EffectFbo → β)
    (hproj : ∀ (f : EffectFbo) (v : String), proj { f with fs := v } = proj f)
    (ok : String → Bool) :
    ∀ (es : List Effect) (fs : List EffectFbo),
    (outPair (bindLoop ok es fs)).snd.map proj = fs.map proj := by
  intro es
  induction es with
  | nil => intro fs; simp [bindLoop, outPair]
  | cons e es ih =>
      intro fs
      cases fs with
      | nil => simp [bindLoop, outPair]
      | cons f fs =>
          have hrec := ih fs
          by_cases hb : e.fbo = some f.id
          · cases hr : bindLoop ok es fs with
            | ok p =>
                rw [hr] at hrec
                cases p with
                | mk a b =>
                    simp [outPair] at hrec
                    simp [bindLoop, hb, hr, outPair, hrec]
            | error p =>
                rw [hr] at hrec
                cases p with
                | mk a b =>
                    simp [outPair] at hrec
                    simp [bindLoop, hb, hr, outPair, hrec]
          · by_cases hok : ok (fullSource e.glsl) = true
            · cases hr : bindLoop ok es fs with
              | ok p =>
                  rw [hr] at hrec
                  cases p with
                  | mk a b =>
                      simp [outPair] at hrec
                      simp [bindLoop, hb, hr, set_fs, hok, outPair, hrec, hproj]
              | error p =>
                  rw [hr] at hrec
                  cases p with
                  | mk a b =>
                      simp [outPair] at hrec
                      simp [bindLoop, hb, hr, set_fs, hok, outPair, hrec, hproj]
            · simp [bindLoop, hb, set_fs, hok, outPair, hproj]

theorem bindLoop_map_sz (ok : String → Bool) (es : List Effect) (fs : List EffectFbo) :
    (outPair (bindLoop ok es fs)).snd.map szProj = fs.map szProj :=
  bindLoop_map_proj szProj (fun _ _ => rfl) ok es fs

theorem wireAux_map_sz (p : Nat) (l : List EffectFbo) :
    (wireAux p l).map szProj = l.map szProj := by
  induction l generalizing p with
  | nil => rfl
  | cons f rest ih => simp [wireAux, ih, szProj]

theorem wire_map_sz (l : List EffectFbo) : (wire l).map szProj = l.map szProj := by
  cases l with
  | nil => rfl
  | cons f rest => simp [wire, wireAux_map_sz]

theorem setHead_map_sz (l : List EffectFbo) :
    (setHead l).map szProj = l.map szProj := by
  cases l with
  | nil => rfl
  | cons f rest => simp [setHead, szProj]

theorem mem_map_szProj (l₁ l₂ : List EffectFbo)
    (h : l₁.map szProj = l₂.map szProj)
    (sz : (Int × Int) × (Int × Int)) (hall : ∀ f ∈ l₂, szProj f = sz) :
    ∀ f ∈ l₁, szProj f = sz := by
  intro f hf
  have hmem : szProj f ∈ l₂.map szProj := by
    rw [← h]
    exact List.mem_map_of_mem _ hf
  obtain ⟨g, hg, hpe⟩ := List.mem_map.mp hmem
  rw [← hpe]
  exact hall g hg

theorem refresh_sizes (ok : String → Bool) (s : EWState) :
    (outState (refresh_fbo_setup ok s)).fboSize = s.size ∧
    (outState (refresh_fbo_setup ok s)).fboRectSize = s.size ∧
    ∀ f ∈ (outState (refresh_fbo_setup ok s)).fboList,
      f.size = s.size ∧ f.rectSize = s.size := by
  simp only [refresh_fbo_setup]
  set g := growAux s.size s.fboList s.canvasFbos s.nextId
      (s.effects.length - s.fboList.length) with hg
  set t := shrinkAux g.fst g.snd.fst (g.fst.length - s.effects.length) with ht
  set lst2 := t.fst.map (fun f => { f with size := s.size, rectSize := s.size }) with hlst2
  have hmem : ∀ f ∈ lst2, szProj f = ((s.size), (s.size)) := by
    intro f hf
    rw [hlst2] at hf
    obtain ⟨g0, _, rfl⟩ := List.mem_map.mp hf
    rfl
  have hfin : ∀ (l : List EffectFbo), l.map szProj = lst2.map szProj →
      ∀ f ∈ l, f.size = s.size ∧ f.rectSize = s.size := by
    intro l hl f hf
    have := mem_map_szProj l lst2 hl ((s.size), (s.size)) hmem f hf
    simp only [szProj, Prod.mk.injEq] at this
    exact this
  split
  · refine ⟨rfl, rfl, ?_⟩
    simp only [outState]
    exact hfin lst2 rfl
  · split
    · next p heq =>
        refine ⟨rfl, rfl, ?_⟩
        simp only [outState]
        have hsz := bindLoop_map_sz ok s.effects (wire lst2)
        rw [heq] at hsz
        simp only [outPair] at hsz
        rw [wire_map_sz] at hsz
        exact hfin p.snd hsz
    · next p heq =>
        have hsz := bindLoop_map_sz ok s.effects (wire lst2)
        rw [heq] at hsz
        simp only [outPair] at hsz
        rw [wire_map_sz] at hsz
        have hsh : (setHead p.snd).map szProj = lst2.map szProj := by
          rw [setHead_map_sz]
          exact hsz
        split
        · refine ⟨rfl, rfl, ?_⟩
          simp only [outState]
          exact hfin (setHead p.snd) hsh
        · refine ⟨rfl, rfl, ?_⟩
          simp only [outState]
          exact hfin (setHead p.snd) hsh

/-- C9 amended: no rejection or clamping of resize targets exists anywhere on
the resize path: on_size forwards the widget size, including zero or negative
components, verbatim to the pre-chain fbo, the clearing rectangle and every
chain fbo; what does hold is that after the call every render target has its
presentation rectangle size equal to its color buffer size (both are the
widget size), whether the call returns normally or raises. -/
theorem effectwidget_c9_amended (ok : String → Bool) (s : EWState) :
    (outState (on_size ok s)).fboSize = s.size ∧
    (outState (on_size ok s)).fboRectSize = s.size ∧
    ∀ f ∈ (outState (on_size ok s)).fboList,
      f.size = s.size ∧ f.rectSize = s.size := by
  have h := refresh_sizes ok { s with fboSize := s.size, fboRectSize := s.size }
  simpa [on_size] using h

/-- Witness: on the concrete non-positive resize c9demo, the pre-chain fbo
size equals the requested widget size and stage 0 has matching rectangle and
buffer sizes. -/
theorem effectwidget_c9_amended_witness :
    c9res.fboSize = c9demo.size ∧
    ((c9res.fboList.get ⟨0, by decide⟩).rectSize = c9demo.size) :=
  ⟨(effectwidget_c9_amended okAll c9demo).1,
   ((effectwidget_c9_amended okAll c9demo).2.2 _ (List.get_mem _ _ _)).2⟩

/-- Counterexample to C9 as stated: the resize request (0, -5) on c9demo is
neither rejected (the fbo size does change away from its previous (50, 50))
nor clamped (the stored size is the non-positive request itself): the
non-positive size reaches the fbo layer verbatim. -/
theorem effectwidget_c9_cex :
    c9demo.size = (0, -5) ∧
    c9demo.fboSize = (50, 50) ∧
    c9res.fboSize = (0, -5) ∧
    ((c9res.fboList.get ⟨0, by decide⟩).size = (0, -5)) :=
  ⟨by decide, by decide, by decide, by decide⟩

/-- C8 amended: on every tick, update_glsl writes the time uniform and the
resolution uniform (widget width and height) into the outer canvas (the final
composite render context) and into every fbo of fbo_list; the pre-chain
self.fbo is NOT touched and keeps whatever uniform state it had. -/
theorem effectwidget_c8_amended (t : Int) (res : Int × Int) (s : TickState) :
    (update_glsl t res s).canvasU = { time := some t, resolution := some res } ∧
    (∀ u ∈ (update_glsl t res s).fboListU,
      u = { time := some t, resolution := some res }) ∧
    (update_glsl t res s).fboU = s.fboU := by
  refine ⟨rfl, ?_, rfl⟩
  intro u hu
  simp only [update_glsl] at hu
  obtain ⟨x, _, hxe⟩ := List.mem_map.mp hu
  exact hxe.symm

/-- Witness: a concrete tick on c8demo writes the uniforms into the canvas and
into stage 0, and leaves the pre-chain fbo uniforms untouched. -/
theorem effectwidget_c8_amended_witness :
    (update_glsl 5 ((640, 480)) c8demo).canvasU =
      { time := some 5, resolution := some ((640, 480)) } ∧
    ((update_glsl 5 ((640, 480)) c8demo).fboListU.get ⟨0, by decide⟩) =
      { time := some 5, resolution := some ((640, 480)) } ∧
    (update_glsl 5 ((640, 480)) c8demo).fboU = c8demo.fboU := by
  have h := effectwidget_c8_amended 5 ((640, 480)) c8demo
  exact ⟨h.1, h.2.1 _ (List.get_mem _ _ _), h.2.2⟩

/-- Counterexample to C8 as stated: after a tick at time 5, the pre-chain
surface (self.fbo, the buffer holding the child content) still has no time
uniform written at all, while the outer canvas does: the claim that the
uniforms are updated on the pre-chain surface is false. -/
theorem effectwidget_c8_cex :
    (update_glsl 5 ((640, 480)) c8demo).fboU.time = none ∧
    (update_glsl 5 ((640, 480)) c8demo).fboU.time ≠ some 5 ∧
    (update_glsl 5 ((640, 480)) c8demo).canvasU.time = some 5 :=
  ⟨rfl, by decide, rfl⟩

theorem unbindPass_map (effects : List Nat) :
    ∀ (bound : List Nat) (pre : List (Nat × GlslCallback)),
    bound.Nodup → (∀ e ∈ bound, glslPair e ∉ pre) →
    unbindPass effects bound (pre ++ bound.map glslPair) =
      pre ++ (bound.filter (fun e => decide (e ∈ effects))).map glslPair := by
  intro bound
  induction bound with
  | nil =>
      intro pre _ _
      simp [unbindPass]
  | cons e rest ih =>
      intro pre hnd hpre
      obtain ⟨hne, hndr⟩ := List.nodup_cons.mp hnd
      by_cases he : e ∈ effects
      · have hpre2 : ∀ x ∈ rest, glslPair x ∉ pre ++ [glslPair e] := by
          intro x hx
          simp only [List.mem_append, List.mem_singleton]
          rintro (hc | hc)
          · exact hpre x (List.mem_cons_of_mem _ hx) hc
          · have : x = e := by
              simpa [glslPair, Prod.mk.injEq] using hc
            exact hne (this ▸ hx)
        have hre : pre ++ (e :: rest).map glslPair =
            (pre ++ [glslPair e]) ++ rest.map glslPair := by
          simp
        rw [hre]
        show unbindPass effects (e :: rest) _ = _
        simp only [unbindPass, he, if_true]
        rw [ih (pre ++ [glslPair e]) hndr hpre2]
        simp [he]
      · have hra : (pre ++ glslPair e :: rest.map glslPair).erase (glslPair e) =
            pre ++ rest.map glslPair := by
          rw [List.erase_append_right _ (hpre e (List.mem_cons_self _ _))]
          simp [List.erase_cons_head]
        have hpre2 : ∀ x ∈ rest, glslPair x ∉ pre := by
          intro x hx
          exact hpre x (List.mem_cons_of_mem _ hx)
        show unbindPass effects (e :: rest) _ = _
        simp only [unbindPass, he, if_false, List.map_cons]
        rw [hra, ih pre hndr hpre2]
        simp [he]

theorem bindPass_spec (effects : List Nat) :
    ∀ (acc : List Nat),
    (bindPass effects acc (acc.map glslPair)).snd =
      (bindPass effects acc (acc.map glslPair)).fst.map glslPair ∧
    (∀ e, e ∈ (bindPass effects acc (acc.map glslPair)).fst ↔
      (e ∈ acc ∨ e ∈ effects)) := by
  induction effects with
  | nil =>
      intro acc
      simp [bindPass]
  | cons x rest ih =>
      intro acc
      by_cases hx : x ∈ acc
      · have hrec := ih acc
        simp only [bindPass, hx, if_true]
        refine ⟨hrec.1, ?_⟩
        intro e
        rw [hrec.2 e]
        constructor
        · rintro (h | h)
          · exact Or.inl h
          · exact Or.inr (List.mem_cons_of_mem _ h)
        · rintro (h | h)
          · exact Or.inl h
          · rcases List.mem_cons.mp h with rfl | h2
            · exact Or.inl hx
            · exact Or.inr h2
      · have hmap : acc.map glslPair ++ [glslPair x] = (acc ++ [x]).map glslPair := by
          simp
        have hrec := ih (acc ++ [x])
        simp only [bindPass, hx, if_false]
        rw [hmap]
        refine ⟨hrec.1, ?_⟩
        intro e
        rw [hrec.2 e]
        simp only [List.mem_append, List.mem_singleton, List.mem_cons]
        tauto

/-- C4 amended: after _update_glsl_bindings, every effect no longer present in
the effects list has its glsl observer removed and every effect present in the
effects list (newly present ones included) has a glsl observer registered; but
the registered callback is refresh_fbo_setup itself, the full reconciliation
of the whole chain, not a rebinding of only that stage shader; moreover the
_bound_effects record itself is never modified, because the source rebinds a
local name instead of the property. -/
theorem effectwidget_c4_amended (s : BindState)
    (hnd : s.bound_effects.Nodup)
    (hobs : s.observers = s.bound_effects.map glslPair) :
    ((_update_glsl_bindings s).bound_effects = s.bound_effects) ∧
    (∀ e, glslPair e ∈ (_update_glsl_bindings s).observers ↔ e ∈ s.effects) ∧
    (∀ p ∈ (_update_glsl_bindings s).observers,
      p.snd = GlslCallback.refresh_fbo_setup_cb) := by
  have hub : unbindPass s.effects s.bound_effects s.observers =
      (s.bound_effects.filter (fun e => decide (e ∈ s.effects))).map glslPair := by
    rw [hobs]
    have h0 := unbindPass_map s.effects s.bound_effects [] hnd (by intro e _; simp)
    simpa using h0
  have hbp := bindPass_spec s.effects (s.bound_effects.filter (fun e => decide (e ∈ s.effects)))
  simp only [_update_glsl_bindings]
  rw [hub]
  obtain ⟨hsnd, hmem⟩ := hbp
  refine ⟨by trivial, ?_, ?_⟩
  · intro e
    show glslPair e ∈ _ ↔ _
    rw [hsnd]
    constructor
    · intro hin
      obtain ⟨a, ha, hae⟩ := List.mem_map.mp hin
      have hea : a = e := by
        simpa [glslPair, Prod.mk.injEq] using hae
      subst hea
      rcases (hmem a).mp ha with h1 | h1
      · have := List.mem_filter.mp h1
        simpa using this.2
      · exact h1
    · intro he
      exact List.mem_map_of_mem _ ((hmem e).mpr (Or.inr he))
  · intro p _
    rcases p with ⟨a, c⟩
    cases c
    trivial

/-- Witness: on c4demo (effect 1 removed, effect 2 retained, effect 3 new),
the update leaves _bound_effects untouched, unsubscribes effect 1 and
subscribes effect 3. -/
theorem effectwidget_c4_amended_witness :
    c4res.bound_effects = c4demo.bound_effects ∧
    (glslPair 1 ∉ c4res.observers) ∧
    (glslPair 3 ∈ c4res.observers) := by
  have h := effectwidget_c4_amended c4demo (by decide) (by decide)
  refine ⟨h.1, ?_, ?_⟩
  · intro hin
    exact absurd ((h.2.1 1).mp hin) (by decide)
  · exact (h.2.1 3).mpr (by decide)

/-- Counterexample to C4 as stated: subscribing a fresh effect registers the
refresh_fbo_setup callback, so a glsl change on that effect triggers exactly
the full reconciliation of the whole chain (the only thing it triggers), not a
rebinding of only its own stage shader. -/
theorem effectwidget_c4_cex :
    glslChangeTriggers (_update_glsl_bindings c4cexDemo) 7 =
      [GlslCallback.refresh_fbo_setup_cb] := by
  decide

theorem mixLetters_cases :
    ∀ (l : List Int), (∀ i ∈ l, i = 0 ∨ i = 1 ∨ i = 2) →
    ∃ ls, mixLetters l = Except.ok ls ∧ ls.length = l.length := by
  intro l
  induction l with
  | nil => intro hall; exact ⟨[], rfl, rfl⟩
  | cons i rest ih =>
      intro hall
      obtain ⟨ls, hml, hlen⟩ := ih (fun j hj => hall j (List.mem_cons_of_mem _ hj))
      rcases hall i (List.mem_cons_self _ _) with h0 | h1 | h2
      · subst h0
        exact ⟨"x" :: ls, by simp [mixLetters, hml, Except.map], by simp [hlen]⟩
      · subst h1
        exact ⟨"y" :: ls, by norm_num [mixLetters, hml, Except.map], by simp [hlen]⟩
      · subst h2
        exact ⟨"z" :: ls, by norm_num [mixLetters, hml, Except.map], by simp [hlen]⟩

theorem mixLetters_err :
    ∀ (l : List Int), (∃ i ∈ l, ¬(i = 0 ∨ i = 1 ∨ i = 2)) →
    ∃ k, mixLetters l = Except.error (PyErr.keyError k) ∧
      ¬(k = 0 ∨ k = 1 ∨ k = 2) := by
  intro l
  induction l with
  | nil =>
      rintro ⟨i, hi, _⟩
      simp at hi
  | cons i rest ih =>
      rintro ⟨j, hj, hbad⟩
      by_cases hi : i = 0 ∨ i = 1 ∨ i = 2
      · have hjr : j ∈ rest := by
          rcases List.mem_cons.mp hj with rfl | h
          · exact absurd hi hbad
          · exact h
        obtain ⟨k, hml, hk⟩ := ih ⟨j, hjr, hbad⟩
        rcases hi with h0 | h1 | h2
        · subst h0
          exact ⟨k, by simp [mixLetters, hml, Except.map], hk⟩
        · subst h1
          exact ⟨k, by norm_num [mixLetters, hml, Except.map], hk⟩
        · subst h2
          exact ⟨k, by norm_num [mixLetters, hml, Except.map], hk⟩
      · push_neg at hi
        obtain ⟨hi0, hi1, hi2⟩ := hi
        refine ⟨i, by simp [mixLetters, hi0, hi1, hi2], ?_⟩
        push_neg
        exact ⟨hi0, hi1, hi2⟩

theorem mixLetters_ok_iff (l : List Int) :
    (∃ ls, mixLetters l = Except.ok ls) ↔ ∀ i ∈ l, i = 0 ∨ i = 1 ∨ i = 2 := by
  constructor
  · rintro ⟨ls, hok⟩
    by_contra hc
    push_neg at hc
    obtain ⟨j, hj, hbad⟩ := hc
    have hbad2 : ¬(j = 0 ∨ j = 1 ∨ j = 2) := by
      push_neg
      exact hbad
    obtain ⟨k, herr, _⟩ := mixLetters_err l ⟨j, hj, hbad2⟩
    rw [herr] at hok
    simp at hok
  · intro hall
    obtain ⟨ls, hml, _⟩ := mixLetters_cases l hall
    exact ⟨ls, hml⟩

theorem mixLetters_ok_length (l : List Int) (ls : List String)
    (h : mixLetters l = Except.ok ls) : ls.length = l.length := by
  have hall := (mixLetters_ok_iff l).mp ⟨ls, h⟩
  obtain ⟨ls2, hml2, hlen⟩ := mixLetters_cases l hall
  rw [h] at hml2
  injection hml2 with h2
  rw [← h2] at hlen
  exact hlen

/-- C10 amended: ChannelMixEffect.do_glsl succeeds exactly when every element
of the order list is 0, 1 or 2 AND the list has at least three elements; any
element outside 0, 1, 2 raises an uncaught KeyError carrying such an element;
an all-valid list with fewer than three elements raises an uncaught IndexError
from the format call; in every raising case nothing is assigned, so glsl is
left unchanged (the error carries no updated effect). -/
theorem effectwidget_c10_amended (e : ChannelMixEffect) :
    ((∃ e2, e.do_glsl = Except.ok e2) ↔
      ((∀ i ∈ e.order, i = 0 ∨ i = 1 ∨ i = 2) ∧ 3 ≤ e.order.length)) ∧
    ((∃ i ∈ e.order, ¬(i = 0 ∨ i = 1 ∨ i = 2)) →
      ∃ k, e.do_glsl = Except.error (PyErr.keyError k) ∧
        ¬(k = 0 ∨ k = 1 ∨ k = 2)) ∧
    (((∀ i ∈ e.order, i = 0 ∨ i = 1 ∨ i = 2) ∧ e.order.length < 3) →
      e.do_glsl = Except.error PyErr.indexError) := by
  refine ⟨⟨?_, ?_⟩, ?_, ?_⟩
  · rintro ⟨e2, h2⟩
    simp only [ChannelMixEffect.do_glsl] at h2
    cases hml : mixLetters e.order with
    | error err =>
        rw [hml] at h2
        simp at h2
    | ok ls =>
        rw [hml] at h2
        refine ⟨(mixLetters_ok_iff e.order).mp ⟨ls, hml⟩, ?_⟩
        have hlen := mixLetters_ok_length e.order ls hml
        cases ls with
        | nil => simp at h2
        | cons a t1 =>
            cases t1 with
            | nil => simp at h2
            | cons b t2 =>
                cases t2 with
                | nil => simp at h2
                | cons c t3 =>
                    simp only [List.length_cons] at hlen
                    omega
  · rintro ⟨hall, hlen⟩
    obtain ⟨ls, hml, hl⟩ := mixLetters_cases e.order hall
    cases ls with
    | nil => simp at hl; omega
    | cons a t1 =>
        cases t1 with
        | nil => simp at hl; omega
        | cons b t2 =>
            cases t2 with
            | nil => simp at hl; omega
            | cons c t3 =>
                exact ⟨_, by simp only [ChannelMixEffect.do_glsl, hml]; rfl⟩
  · rintro ⟨j, hj, hbad⟩
    obtain ⟨k, hml, hk⟩ := mixLetters_err e.order ⟨j, hj, hbad⟩
    exact ⟨k, by simp only [ChannelMixEffect.do_glsl, hml], hk⟩
  · rintro ⟨hall, hlen⟩
    obtain ⟨ls, hml, hl⟩ := mixLetters_cases e.order hall
    cases ls with
    | nil => simp only [ChannelMixEffect.do_glsl, hml]
    | cons a t1 =>
        cases t1 with
        | nil => simp only [ChannelMixEffect.do_glsl, hml]
        | cons b t2 =>
            cases t2 with
            | nil => simp only [ChannelMixEffect.do_glsl, hml]
            | cons c t3 =>
                exfalso
                simp only [List.length_cons] at hl
                omega

/-- Witness for the amended C10 theorem: the all-valid but too short order
list [0, 1] makes do_glsl raise IndexError. -/
theorem effectwidget_c10_amended_witness :
    ChannelMixEffect.do_glsl { order := [0, 1], glsl := effect_trivial } =
      Except.error PyErr.indexError :=
  (effectwidget_c10_amended { order := [0, 1], glsl := effect_trivial }).2.2
    ⟨by decide, by decide⟩

/-- Counterexample to C10 as stated: every element of the order list [0] is in
0, 1, 2, yet do_glsl does not succeed: it raises IndexError (str.format has
three slots but received one letter), so succeeding is NOT exactly
characterized by all elements being 0, 1 or 2. -/
theorem effectwidget_c10_cex :
    ChannelMixEffect.do_glsl { order := [0], glsl := effect_trivial } =
      Except.error PyErr.indexError ∧
    (∀ i ∈ ([0] : List Int), i = 0 ∨ i = 1 ∨ i = 2) :=
  ⟨rfl, by decide⟩

/-- C5: setting pixel_size on PixelateEffect and size on the blur effects
regenerates glsl from the new value synchronously inside the setter; but
setting order on ChannelMixEffect does NOT regenerate glsl (the change handler
is misnamed on_size, and the class has no size property, so it never fires):
assigning order [0, 1, 2] to a default ChannelMixEffect leaves glsl at the
source generated from the default order [1, 2, 0], which differs from the
source the new order should generate. -/
theorem effectwidget_c5_bug :
    channelMixInit.glsl = effect_mix_fmt ("y") ("z") ("x") ∧
    (channelMixInit.set_order [0, 1, 2]).glsl = effect_mix_fmt ("y") ("z") ("x") ∧
    effect_mix_fmt ("y") ("z") ("x") ≠ effect_mix_fmt ("x") ("y") ("z") ∧
    (PixelateEffect.set_pixel_size { pixel_size := 10, glsl := effect_trivial } 5).glsl =
      effect_pixelate_fmt ("5.0") ∧
    (HorizontalBlurEffect.set_size { size := 4, glsl := effect_trivial } 8).glsl =
      effect_blur_h_fmt ("8.0") ∧
    (VerticalBlurEffect.set_size { size := 4, glsl := effect_trivial } 8).glsl =
      effect_blur_h_fmt ("8.0") :=
  ⟨rfl, rfl, by decide, rfl, rfl, rfl⟩

/-- C6: for every size value, VerticalBlurEffect generates the HORIZONTAL blur
kernel: its do_glsl formats effect_blur_h, whose taps move along the x texture
coordinate with the y coordinate fixed, and the generated source differs from
what the unused effect_blur_v template (taps along y) would give; the nine tap
weights are as claimed but the direction is wrong, contradicting the class
docstring Blurs the input vertically. -/
theorem effectwidget_c6_bug :
    (∀ (e : VerticalBlurEffect) (v : Int),
      (VerticalBlurEffect.set_size e v).glsl = effect_blur_h_fmt (pyFloatStr v)) ∧
    effect_blur_h_fmt ("4.0") ≠ effect_blur_v_fmt ("4.0") ∧
    (("vec2(tex_coords.x - 4.0*dt, tex_coords.y)").toList <:+:
      (effect_blur_h_fmt ("4.0")).toList) ∧
    (("vec2(tex_coords.x, tex_coords.y - 4.0*dt)").toList <:+:
      (effect_blur_v_fmt ("4.0")).toList) :=
  ⟨fun _ _ => rfl, by decide, by decide, by decide⟩

/-- Witness: on the concrete two effect run, the reconciled fbo list length
equals the effects list length. -/
theorem effectwidget_c2_length_witness :
    (outState (refresh_fbo_setup okAll c1demo)).fboList.length =
      (outState (refresh_fbo_setup okAll c1demo)).effects.length :=
  (effectwidget_c2_length okAll c1demo).1

/-- Witness: a concrete VerticalBlurEffect with size 4 generates the
horizontal blur source. -/
theorem effectwidget_c6_bug_witness :
    (VerticalBlurEffect.set_size { size := 4, glsl := effect_trivial } 4).glsl =
      effect_blur_h_fmt ("4.0") :=
  (effectwidget_c6_bug).1 { size := 4, glsl := effect_trivial } 4

end EW
